import Mathlib

/-!
Verification of the Fridgetracker REST API core: the token-based
authentication and authorization layer and the webhook expiration
notification dispatcher. The definitions below are a shallow embedding
of the JavaScript source files: `src/routes/api/v1/fridge-router.js`
(helpers `hasPermission` and `authenticateJWT`),
`src/controllers/fridge-controller.js` (`cleanOut`, `registerWebhook`,
`create`, `putEdit`, `patchEdit`, `delete`),
`src/controllers/product-controller.js` (`create`, `delete`),
`src/services/webhook.js` (`WebhookService.checkFridges`) and the
Mongoose models for fridges and products. Persistence is modelled as an
explicit `Store` value threaded through every database call, so that
read-only operations are provably read-only rather than so by fiat.
-/

namespace Fridgetracker

/-! ### Data model -/

/-- A persisted product document (Mongoose model `Product`). Expiration
dates are modelled as integers (milliseconds since epoch, the ordering
used by the JavaScript `Date` comparison). -/
structure Product where
  id : Nat
  fridgeId : Nat
  name : String
  expirationDate : Int
deriving DecidableEq

/-- A persisted fridge document (Mongoose model `Fridge`): the member
products are held as a list of references (object ids), and the
notification target fields `webhookUrl` and `webhookSecret` are optional
strings. -/
structure Fridge where
  _id : Nat
  name : String
  location : Option String
  ownerId : Nat
  products : List Nat
  temperature : Option Int
  webhookUrl : Option String
  webhookSecret : Option String
deriving DecidableEq

/-- The persisted database state: the fridge collection and the product
collection. -/
structure Store where
  fridges : List Fridge
  products : List Product
deriving DecidableEq

/-- JavaScript falsiness of an optional string value: absent (`undefined`)
or the empty string. Used wherever the source guards with `!value`. -/
def falsy : Option String → Bool
  | none => true
  | some str => str == ""

/-- JavaScript truthiness of an optional number value: present and not
zero. Used for the temperature guards of `putEdit`. -/
def truthyNum : Option Int → Bool
  | none => false
  | some t => !(t == 0)

/-- Database read `Fridge.find` on the query that the webhook url field
exists: returns the matching fridges, leaving the store untouched. -/
def dbFindWebhookFridges (s : Store) : List Fridge × Store :=
  (s.fridges.filter (fun f => f.webhookUrl.isSome), s)

/-- Database read `Product.findById(pid)`: returns the product when it
exists, leaving the store untouched. -/
def dbFindProductById (pid : Nat) (s : Store) : Option Product × Store :=
  (s.products.find? (fun p => p.id == pid), s)

/-- Database read `Fridge.findById(fid)`. -/
def findFridge (s : Store) (fid : Nat) : Option Fridge :=
  s.fridges.find? (fun f => f._id == fid)

/-- Database write `fridge.save()`: replaces the stored fridge document
that has the same id. -/
def dbSaveFridge (f : Fridge) (s : Store) : Store :=
  { s with fridges := s.fridges.map (fun g => if g._id == f._id then f else g) }

/-! ### CapabilityGate: helper `hasPermission` of `fridge-router.js` -/

/-- Capability flag READ, frozen in `fridge-router.js` as
`PermissionLevels.READ`. -/
def READ : Nat := 1
/-- Capability flag CREATE. -/
def CREATE : Nat := 2
/-- Capability flag UPDATE. -/
def UPDATE : Nat := 4
/-- Capability flag DELETE. -/
def DELETE : Nat := 8

/-- Outcome of the authorization middleware: continue the chain, or pass
a forbidden error to `next`. -/
inductive AuthzOutcome where
  | granted
  | forbidden (status : Nat)
deriving DecidableEq

/-- The capability gate of `fridge-router.js`: the source ternary tests
the bitwise conjunction of the principal mask and the required level and
calls `next()` when it is truthy, `next(createError(403))` when it is
zero. -/
def hasPermission (mask required : Nat) : AuthzOutcome :=
  if mask &&& required ≠ 0 then .granted else .forbidden 403

/-! ### TokenVerifier: helper `authenticateJWT` of `fridge-router.js` -/

/-- The claim set carried by a session token, as minted by
`UserController.login`. -/
structure Claims where
  sub : String
  given_name : String
  family_name : String
  email : String
  id : String
  x_permission_level : Nat
deriving DecidableEq

/-- An abstract signed token. A key pair of the asymmetric scheme is
identified by a shared key identifier: `signedWith` records the pair the
signing private key belongs to, and `expiresAt` the expiration instant
set at issuance. -/
structure Token where
  claims : Claims
  signedWith : Nat
  expiresAt : Int
deriving DecidableEq

/-- Signing as performed by `UserController.login` with the configured
private key: an abstraction of RS256 keeping the claim set, the key pair
and the expiration instant. -/
def signJwt (claims : Claims) (privateKey : Nat) (expiresAt : Int) : Token :=
  { claims := claims, signedWith := privateKey, expiresAt := expiresAt }

/-- Model of the external jsonwebtoken library verification against the
configured public key: it succeeds exactly when a token is present, was
signed with the private key of the configured pair, and is not expired
at the current instant; it yields the decoded claim set, and fails
(throws) otherwise. A missing token models a header without a token
part. -/
def jwtVerify (token : Option Token) (publicKey : Nat) (now : Int) :
    Option Claims :=
  match token with
  | none => none
  | some t => if t.signedWith == publicKey ∧ now < t.expiresAt then some t.claims else none

/-- The Authorization header split at the blank, as destructured by
`authenticateJWT` into a scheme and an optional token part; `none`
models a missing header. -/
structure AuthHeader where
  scheme : String
  token : Option Token
deriving DecidableEq

/-- The request principal built by `authenticateJWT` and read by the
capability gate. -/
structure Principal where
  username : String
  firstName : String
  lastName : String
  email : String
  id : String
  permissionLevel : Nat
deriving DecidableEq

/-- Outcome of the authentication middleware: continue with the request
principal populated, or pass an unauthorized error to `next`. -/
inductive AuthnOutcome where
  | ok (user : Principal)
  | unauthorized (status : Nat)
deriving DecidableEq

/-- The conversion of decoded claims into the request principal, exactly
the object literal assigned to the request user field in
`authenticateJWT`. -/
def principalOfClaims (c : Claims) : Principal :=
  { username := c.sub
    firstName := c.given_name
    lastName := c.family_name
    email := c.email
    id := c.id
    permissionLevel := c.x_permission_level }

/-- The authentication middleware `authenticateJWT` of
`fridge-router.js`: a missing header makes the destructuring throw
(caught as 401); a scheme other than Bearer throws (caught as 401); a
failed verification throws (caught as 401); otherwise the request
principal is populated from the decoded claims. -/
def authenticateJWT (publicKey : Nat) (now : Int) (header : Option AuthHeader) :
    AuthnOutcome :=
  match header with
  | none => .unauthorized 401
  | some h =>
    if h.scheme ≠ "Bearer" then .unauthorized 401
    else
      match jwtVerify h.token publicKey now with
      | none => .unauthorized 401
      | some payload => .ok (principalOfClaims payload)

/-! ### ExpirationScanner: `WebhookService.checkFridges` of `webhook.js` -/

/-- One entry of the scan result: a fridge document together with the
in-memory expired products list attached to it by the scan. -/
structure ScanResult where
  fridge : Fridge
  expiredProducts : List Product
deriving DecidableEq

/-- The inner loop of `checkFridges` over the product references of one
fridge: each reference is looked up with `Product.findById`; a failed
lookup makes the expiration date access on the null result throw, which
rejects the whole scan (`Except.error`); a found product is kept when
its expiration date is strictly before the reference date. The store is
threaded through every database call. -/
def scanProductsS (date : Int) : List Nat → Store → Except Unit (List Product) × Store
  | [], s => (.ok [], s)
  | pid :: rest, s =>
    match dbFindProductById pid s with
    | (none, s1) => (.error (), s1)
    | (some p, s1) =>
      match scanProductsS date rest s1 with
      | (.error e, s2) => (.error e, s2)
      | (.ok ps, s2) =>
        (.ok (if p.expirationDate < date then p :: ps else ps), s2)

/-- The outer loop of `checkFridges` over the fridges carrying a webhook
url: each starts from an empty expired list and, when it has members
(the source guards on a positive products length), scans them; an
exception thrown while scanning one fridge rejects the whole scan. -/
def scanFridgesS (date : Int) : List Fridge → Store → Except Unit (List ScanResult) × Store
  | [], s => (.ok [], s)
  | f :: rest, s =>
    match (if 0 < f.products.length then scanProductsS date f.products s else (.ok [], s)) with
    | (.error e, s1) => (.error e, s1)
    | (.ok expired, s1) =>
      match scanFridgesS date rest s1 with
      | (.error e, s2) => (.error e, s2)
      | (.ok rs, s2) => (.ok ({ fridge := f, expiredProducts := expired } :: rs), s2)

/-- The scanner `WebhookService.checkFridges(date)`: query the fridges
whose webhook url exists, then compute the expired products of each. -/
def checkFridges (date : Int) (s : Store) : Except Unit (List ScanResult) × Store :=
  match dbFindWebhookFridges s with
  | (fs, s1) => scanFridgesS date fs s1

/-! ### NotificationDispatcher: `FridgeController.cleanOut` -/

/-- Outcome of one outbound `fetch` to a webhook url, supplied by an
environment oracle: the promise either rejects (network-level failure,
for example connection refused) or resolves to an HTTP response with an
ok flag and a status code. -/
inductive FetchResult where
  | reject
  | httpResponse (ok : Bool) (status : Nat)
deriving DecidableEq

/-- The observable HTTP outcome of the cleanout trigger: the 204 response
ending the request, or an error passed to the `next` error handler. -/
inductive HttpOutcome where
  | noContent
  | errorPassed
deriving DecidableEq

/-- The dispatch loop of `cleanOut` over the scan results: each fridge
gets one awaited `fetch` of its webhook url, modelled by an oracle keyed
on the fridge id. A rejected promise escapes the loop as an exception
(the remaining fridges are not attempted); a resolved response only
builds an unused error object when it is not ok, and the loop continues.
Returns the ids of the fridges whose call was attempted, in order, and
whether an exception escaped. -/
def dispatchLoop (fetchO : Nat → FetchResult) : List ScanResult → List Nat × Bool
  | [] => ([], false)
  | r :: rest =>
    match fetchO r.fridge._id with
    | .reject => ([r.fridge._id], true)
    | .httpResponse _ _ =>
      match dispatchLoop fetchO rest with
      | (att, failed) => (r.fridge._id :: att, failed)

/-- The cleanout trigger `FridgeController.cleanOut`: run the scan on the
current date, then the dispatch loop; any exception — from the scan or
from a rejected fetch — reaches the catch block, which passes the error
to `next`; otherwise the trigger responds 204 with no content. The
result pairs the attempted fridge ids and the observable response with
the store after the cycle. -/
def cleanOut (date : Int) (fetchO : Nat → FetchResult) (s : Store) :
    (List Nat × HttpOutcome) × Store :=
  match checkFridges date s with
  | (.error _, s1) => (([], .errorPassed), s1)
  | (.ok rs, s1) =>
    match dispatchLoop fetchO rs with
    | (att, failed) => ((att, if failed then .errorPassed else .noContent), s1)

/-! ### Webhook registration and the store-mutating handlers -/

/-- The registration payload fields read by `registerWebhook`. -/
structure WebhookBody where
  webhookUrl : Option String
  webhookSecret : Option String
deriving DecidableEq

/-- Outcome of the webhook registration handler. -/
inductive RegisterOutcome where
  | noContent
  | notFound
  | badRequest
deriving DecidableEq

/-- The handler `FridgeController.registerWebhook`: a missing fridge is a
404; a falsy webhook url or secret is a 400 with nothing written;
otherwise both fields are assigned and the fridge is saved, answering
204. -/
def registerWebhook (s : Store) (fid : Nat) (body : WebhookBody) :
    RegisterOutcome × Store :=
  match findFridge s fid with
  | none => (.notFound, s)
  | some f =>
    if falsy body.webhookUrl || falsy body.webhookSecret then (.badRequest, s)
    else
      (.noContent,
       dbSaveFridge
         { f with webhookUrl := body.webhookUrl, webhookSecret := body.webhookSecret } s)

/-- The handler `FridgeController.create`: requires a truthy name and no
existing fridge of the same name, then saves a new fridge holding only
the location, name and owner — the webhook fields are not set. The store
is returned unchanged on the failing paths. -/
def createFridge (s : Store) (newId ownerId : Nat) (name location : Option String) :
    Store :=
  match name with
  | none => s
  | some n =>
    if n == "" then s
    else if s.fridges.any (fun f => f.name == n) then s
    else
      { s with
        fridges := s.fridges ++
          [{ _id := newId, name := n, location := location, ownerId := ownerId,
             products := [], temperature := none,
             webhookUrl := none, webhookSecret := none }] }

/-- Field update of the edit handlers: a truthy body string replaces the
stored one, otherwise the stored value is kept. -/
def updStr (old new : Option String) : Option String :=
  if falsy new then old else new

/-- Name update of the edit handlers (the stored name is mandatory). -/
def updName (old : String) (new : Option String) : String :=
  match new with
  | none => old
  | some n => if n == "" then old else n

/-- Temperature update of the edit handlers: a truthy body number (present
and nonzero) replaces the stored one. -/
def updTemp (old new : Option Int) : Option Int :=
  if truthyNum new then new else old

/-- The handler `FridgeController.putEdit`: requires a truthy new name, a
new location when one is stored, and a new temperature when a truthy one
is stored; then overwrites the three editable fields and saves. The
webhook fields are never touched. -/
def putEditFridge (s : Store) (fid : Nat) (name location : Option String)
    (temperature : Option Int) : Store :=
  match findFridge s fid with
  | none => s
  | some f =>
    if falsy name then s
    else if !(falsy f.location) && falsy location then s
    else if truthyNum f.temperature && !(truthyNum temperature) then s
    else
      dbSaveFridge
        { f with name := updName f.name name, location := updStr f.location location,
                 temperature := updTemp f.temperature temperature } s

/-- The handler `FridgeController.patchEdit`: requires at least one truthy
field among name, location and temperature, then overwrites the present
ones and saves. The webhook fields are never touched. -/
def patchEditFridge (s : Store) (fid : Nat) (name location : Option String)
    (temperature : Option Int) : Store :=
  match findFridge s fid with
  | none => s
  | some f =>
    if falsy name && falsy location && !(truthyNum temperature) then s
    else
      dbSaveFridge
        { f with name := updName f.name name, location := updStr f.location location,
                 temperature := updTemp f.temperature temperature } s

/-- The handler `FridgeController.delete`: deletes every member product of
the fridge, then the fridge itself. -/
def deleteFridge (s : Store) (fid : Nat) : Store :=
  match findFridge s fid with
  | none => s
  | some f =>
    { fridges := s.fridges.filter (fun g => !(g._id == fid)),
      products := s.products.filter (fun p => !(f.products.contains p.id)) }

/-- The handler `ProductController.create`: a product with a truthy name
and a valid expiration date is saved and its id pushed onto the fridge
member list; when either field is missing the save is rejected by the
schema validation and the store is unchanged. Fridge fields other than
the member list are never touched. -/
def createProduct (s : Store) (fid pid : Nat) (name : Option String)
    (expirationDate : Option Int) : Store :=
  match name, expirationDate with
  | some n, some e =>
    if n == "" then s
    else
      let s1 := { s with products := s.products ++
        [{ id := pid, fridgeId := fid, name := n, expirationDate := e }] }
      match findFridge s1 fid with
      | none => s1
      | some f => dbSaveFridge { f with products := f.products ++ [pid] } s1
  | _, _ => s

/-- The handler `ProductController.delete`: removes the first occurrence
of the product id from the fridge member list, saves the fridge, then
deletes the product document. -/
def deleteProduct (s : Store) (fid pid : Nat) : Store :=
  match (dbFindProductById pid s).1 with
  | none => s
  | some _ =>
    match findFridge s fid with
    | none => s
    | some f =>
      let s1 := dbSaveFridge { f with products := f.products.erase pid } s
      { s1 with products := s1.products.filter (fun p => !(p.id == pid)) }

/-! ### Reachable stores and the webhook pairing invariant -/

/-- The stores reachable from the empty database through the public
store-mutating operations of the API. -/
inductive Reachable : Store → Prop where
  | init : Reachable { fridges := [], products := [] }
  | createF {s : Store} (newId ownerId : Nat) (name location : Option String) :
      Reachable s → Reachable (createFridge s newId ownerId name location)
  | putF {s : Store} (fid : Nat) (name location : Option String) (temperature : Option Int) :
      Reachable s → Reachable (putEditFridge s fid name location temperature)
  | patchF {s : Store} (fid : Nat) (name location : Option String) (temperature : Option Int) :
      Reachable s → Reachable (patchEditFridge s fid name location temperature)
  | registerW {s : Store} (fid : Nat) (body : WebhookBody) :
      Reachable s → Reachable (registerWebhook s fid body).2
  | deleteF {s : Store} (fid : Nat) : Reachable s → Reachable (deleteFridge s fid)
  | createP {s : Store} (fid pid : Nat) (name : Option String) (expirationDate : Option Int) :
      Reachable s → Reachable (createProduct s fid pid name expirationDate)
  | deleteP {s : Store} (fid pid : Nat) : Reachable s → Reachable (deleteProduct s fid pid)

/-- The pairing invariant of the notification target fields: a stored
fridge has a webhook url exactly when it has a webhook secret. -/
def WebhookInv (s : Store) : Prop :=
  ∀ f ∈ s.fridges, f.webhookUrl.isSome ↔ f.webhookSecret.isSome

/-! ### Concrete stores for the closed instances -/

/-- First of three fridges with registered notification targets. -/
def fridgeA : Fridge :=
  { _id := 1, name := "a", location := none, ownerId := 0, products := [],
    temperature := none, webhookUrl := some "hook1", webhookSecret := some "s1" }

/-- Second of three fridges with registered notification targets. -/
def fridgeB : Fridge :=
  { _id := 2, name := "b", location := none, ownerId := 0, products := [],
    temperature := none, webhookUrl := some "hook2", webhookSecret := some "s2" }

/-- Third of three fridges with registered notification targets. -/
def fridgeC : Fridge :=
  { _id := 3, name := "c", location := none, ownerId := 0, products := [],
    temperature := none, webhookUrl := some "hook3", webhookSecret := some "s3" }

/-- A store with three registered notification targets and no products:
the scan trivially succeeds with three entries. -/
def store3 : Store :=
  { fridges := [fridgeA, fridgeB, fridgeC], products := [] }

/-- The scan result of `store3` at any date: three entries with empty
expired lists. -/
def store3Result : List ScanResult :=
  [ { fridge := fridgeA, expiredProducts := [] },
    { fridge := fridgeB, expiredProducts := [] },
    { fridge := fridgeC, expiredProducts := [] } ]

/-- The outbound-call oracle used for the dispatch counterexamples: the
call for fridge id 2 is refused at the network level, every other call
resolves successfully. -/
def rejectSecond : Nat → FetchResult :=
  fun i => if i == 2 then .reject else .httpResponse true 200

/-- A store whose first monitored fridge holds a dangling product
reference (id 10 is absent from the product collection) while the second
monitored fridge is intact and holds one expired product. -/
def storeDangling : Store :=
  { fridges :=
      [ { _id := 1, name := "broken", location := none, ownerId := 0, products := [10],
          temperature := none, webhookUrl := some "hook1", webhookSecret := some "s1" },
        { _id := 2, name := "intact", location := none, ownerId := 0, products := [11],
          temperature := none, webhookUrl := some "hook2", webhookSecret := some "s2" } ],
    products := [ { id := 11, fridgeId := 2, name := "milk", expirationDate := -1 } ] }

/-- A store with one monitored fridge holding one product expired
yesterday and one expiring tomorrow, relative to the reference date 0. -/
def storeScan : Store :=
  { fridges :=
      [ { _id := 1, name := "kitchen", location := none, ownerId := 0, products := [10, 11],
          temperature := none, webhookUrl := some "hook", webhookSecret := some "sec" } ],
    products :=
      [ { id := 10, fridgeId := 1, name := "yoghurt", expirationDate := -1 },
        { id := 11, fridgeId := 1, name := "cheese", expirationDate := 1 } ] }

/-- A fridge carrying an already registered notification target. -/
def fridgeReg : Fridge :=
  { _id := 1, name := "kitchen", location := none, ownerId := 0, products := [],
    temperature := none, webhookUrl := some "oldHook", webhookSecret := some "oldSec" }

/-- A store with one fridge carrying an already registered notification
target, for the registration claims. -/
def storeReg : Store :=
  { fridges := [fridgeReg], products := [] }

/-- The scan result of `storeScan` at reference date 0: exactly the
product expired yesterday. -/
def storeScanResult : List ScanResult :=
  [ { fridge :=
        { _id := 1, name := "kitchen", location := none, ownerId := 0, products := [10, 11],
          temperature := none, webhookUrl := some "hook", webhookSecret := some "sec" },
      expiredProducts := [ { id := 10, fridgeId := 1, name := "yoghurt", expirationDate := -1 } ] } ]

/-- The empty database. -/
def emptyStore : Store := { fridges := [], products := [] }

/-- A store built by the public operations: one fridge created and then
given a notification target. -/
def demoStore : Store :=
  (registerWebhook (createFridge emptyStore 1 5 (some "kitchen") none) 1
    { webhookUrl := some "hook", webhookSecret := some "sec" }).2

/-! ## Helper lemmas -/

/-- The product loop leaves the persisted store untouched: it performs
only read operations. -/
theorem scanProductsS_store (date : Int) :
    ∀ (pids : List Nat) (s : Store), (scanProductsS date pids s).2 = s
  | [], _ => rfl
  | pid :: rest, s => by
    have ih := scanProductsS_store date rest s
    simp only [scanProductsS, dbFindProductById]
    cases hp : s.products.find? (fun p => p.id == pid) with
    | none => rfl
    | some p =>
      simp only
      cases hr : scanProductsS date rest s with
      | mk r s2 =>
        rw [hr] at ih
        cases r with
        | error e => simpa using ih
        | ok ps => simpa using ih

/-- The fridge loop leaves the persisted store untouched. -/
theorem scanFridgesS_store (date : Int) :
    ∀ (fs : List Fridge) (s : Store), (scanFridgesS date fs s).2 = s
  | [], _ => rfl
  | f :: rest, s => by
    simp only [scanFridgesS]
    by_cases h0 : 0 < f.products.length
    · simp only [h0, if_true]
      have hps := scanProductsS_store date f.products s
      cases hp : scanProductsS date f.products s with
      | mk r s1 =>
        rw [hp] at hps
        cases r with
        | error e => exact hps
        | ok expired =>
          simp only
          have ih := scanFridgesS_store date rest s1
          cases hr : scanFridgesS date rest s1 with
          | mk r2 s2 =>
            rw [hr] at ih
            cases r2 with
            | error e => simpa using ih.trans hps
            | ok rs => simpa using ih.trans hps
    · simp only [h0, if_false]
      have ih := scanFridgesS_store date rest s
      cases hr : scanFridgesS date rest s with
      | mk r2 s2 =>
        rw [hr] at ih
        cases r2 with
        | error e => simpa using ih
        | ok rs => simpa using ih

/-- The whole scan leaves the persisted store untouched. -/
theorem checkFridges_store (date : Int) (s : Store) :
    (checkFridges date s).2 = s := by
  simp only [checkFridges, dbFindWebhookFridges]
  exact scanFridgesS_store date _ s

/-- Unfolding equation of the product loop on a nonempty reference list,
phrased with the store unchanged (reads do not modify it). -/
theorem scanProductsS_cons (date : Int) (pid : Nat) (rest : List Nat) (s : Store) :
    scanProductsS date (pid :: rest) s =
      match (dbFindProductById pid s).1 with
      | none => (.error (), s)
      | some p =>
        match scanProductsS date rest s with
        | (.error e, s2) => (.error e, s2)
        | (.ok ps, s2) =>
          (.ok (if p.expirationDate < date then p :: ps else ps), s2) := by
  simp only [scanProductsS, dbFindProductById]
  cases hf : s.products.find? (fun p => p.id == pid) <;> simp

/-- Unfolding equation of the fridge loop on a nonempty fridge list: the
guard on a positive member count is equivalent to running the product
loop unconditionally, since the product loop on an empty reference list
yields an empty expired list. -/
theorem scanFridgesS_cons (date : Int) (f : Fridge) (rest : List Fridge) (s : Store) :
    scanFridgesS date (f :: rest) s =
      match scanProductsS date f.products s with
      | (.error e, s1) => (.error e, s1)
      | (.ok expired, s1) =>
        match scanFridgesS date rest s1 with
        | (.error e, s2) => (.error e, s2)
        | (.ok rs, s2) => (.ok ({ fridge := f, expiredProducts := expired } :: rs), s2) := by
  simp only [scanFridgesS]
  by_cases h0 : 0 < f.products.length
  · simp [h0]
  · have hnil : f.products = [] := List.length_eq_zero.mp (Nat.eq_zero_of_not_pos h0)
    simp [h0, hnil, scanProductsS]

/-- Success characterization of the product loop: when no lookup fails,
the expired list is exactly the resolved members whose expiration date
is strictly before the reference date, in order. -/
theorem scanProductsS_ok (date : Int) :
    ∀ (pids : List Nat) (s : Store) (es : List Product),
      (scanProductsS date pids s).1 = .ok es →
      es = (pids.filterMap (fun pid => (dbFindProductById pid s).1)).filter
            (fun p => decide (p.expirationDate < date))
  | [], s, es => by
    intro h
    simp only [scanProductsS] at h
    injection h with h1
    simp [← h1]
  | pid :: rest, s, es => by
    rw [scanProductsS_cons]
    cases hf : (dbFindProductById pid s).1 with
    | none =>
      intro h
      exact absurd h (by simp)
    | some p =>
      cases hr : scanProductsS date rest s with
      | mk r s2 =>
        cases r with
        | error e =>
          intro h
          exact absurd h (by simp)
        | ok ps =>
          intro h
          simp only [Except.ok.injEq] at h
          have ih := scanProductsS_ok date rest s ps (by rw [hr])
          subst h
          rw [List.filterMap_cons, hf, List.filter_cons]
          by_cases hd : p.expirationDate < date <;> simp [hd, ih]

/-- Resolved form of the fridge loop when the head fridge throws. -/
theorem scanFridgesS_cons_err (date : Int) (f : Fridge) (rest : List Fridge)
    (s s1 : Store) (hp : scanProductsS date f.products s = (.error (), s1)) :
    scanFridgesS date (f :: rest) s = (.error (), s1) := by
  rw [scanFridgesS_cons, hp]

/-- Resolved form of the fridge loop when the head fridge scans
successfully, leaving the tail to be scanned. -/
theorem scanFridgesS_cons_ok (date : Int) (f : Fridge) (rest : List Fridge)
    (s s1 : Store) (expired : List Product)
    (hp : scanProductsS date f.products s = (.ok expired, s1)) :
    scanFridgesS date (f :: rest) s =
      (match scanFridgesS date rest s1 with
       | (.error e, s2) => (.error e, s2)
       | (.ok rs, s2) =>
         (.ok ({ fridge := f, expiredProducts := expired } :: rs), s2)) := by
  rw [scanFridgesS_cons, hp]

/-- Resolved form of the fridge loop when the head scans successfully and
the tail throws. -/
theorem scanFridgesS_cons_ok_err (date : Int) (f : Fridge) (rest : List Fridge)
    (s s1 s2 : Store) (expired : List Product)
    (hp : scanProductsS date f.products s = (.ok expired, s1))
    (hr : scanFridgesS date rest s1 = (.error (), s2)) :
    scanFridgesS date (f :: rest) s = (.error (), s2) := by
  rw [scanFridgesS_cons_ok date f rest s s1 expired hp, hr]

/-- Resolved form of the fridge loop when both the head and the tail scan
successfully. -/
theorem scanFridgesS_cons_ok_ok (date : Int) (f : Fridge) (rest : List Fridge)
    (s s1 s2 : Store) (expired : List Product) (rs2 : List ScanResult)
    (hp : scanProductsS date f.products s = (.ok expired, s1))
    (hr : scanFridgesS date rest s1 = (.ok rs2, s2)) :
    scanFridgesS date (f :: rest) s =
      (.ok ({ fridge := f, expiredProducts := expired } :: rs2), s2) := by
  rw [scanFridgesS_cons_ok date f rest s s1 expired hp, hr]

/-- Success characterization of the fridge loop: the scanned fridges are
returned in query order, each with exactly its strictly expired resolved
members. -/
theorem scanFridgesS_ok (date : Int) :
    ∀ (fs : List Fridge) (s : Store) (rs : List ScanResult),
      (scanFridgesS date fs s).1 = .ok rs →
      rs.map ScanResult.fridge = fs ∧
      ∀ r ∈ rs, r.expiredProducts =
        (r.fridge.products.filterMap (fun pid => (dbFindProductById pid s).1)).filter
          (fun p => decide (p.expirationDate < date))
  | [], s, rs => by
    intro h
    replace h : (Except.ok [] : Except Unit (List ScanResult)) = .ok rs := h
    injection h with h1
    subst h1
    exact ⟨rfl, by simp⟩
  | f :: rest, s, rs => by
    intro h
    cases hp : scanProductsS date f.products s with
    | mk r s1 =>
      have hs1 : s1 = s := by
        have hst := scanProductsS_store date f.products s
        rw [hp] at hst
        exact hst
      rw [hs1] at hp
      cases r with
      | error e =>
        cases e
        rw [scanFridgesS_cons_err date f rest s s hp] at h
        exact absurd h (by simp)
      | ok expired =>
        cases hr : scanFridgesS date rest s with
        | mk r2 s2 =>
          cases r2 with
          | error e2 =>
            cases e2
            rw [scanFridgesS_cons_ok_err date f rest s s s2 expired hp hr] at h
            exact absurd h (by simp)
          | ok rs2 =>
            rw [scanFridgesS_cons_ok_ok date f rest s s s2 expired rs2 hp hr] at h
            replace h : Except.ok ({ fridge := f, expiredProducts := expired } :: rs2) =
                (Except.ok rs : Except Unit (List ScanResult)) := h
            injection h with h1
            subst h1
            obtain ⟨ih1, ih2⟩ := scanFridgesS_ok date rest s rs2 (by rw [hr])
            refine ⟨by simp [ih1], ?_⟩
            intro r hrmem
            rcases List.mem_cons.mp hrmem with h1 | h2
            · subst h1
              simpa using scanProductsS_ok date f.products s expired (by rw [hp])
            · exact ih2 r h2

/-- Failure characterization of the product loop: the loop throws exactly
when some member reference fails to resolve. -/
theorem scanProductsS_error_iff (date : Int) :
    ∀ (pids : List Nat) (s : Store),
      ((scanProductsS date pids s).1 = .error ()) ↔
      ∃ pid ∈ pids, (dbFindProductById pid s).1 = none
  | [], s => by simp [scanProductsS]
  | pid :: rest, s => by
    rw [scanProductsS_cons]
    cases hf : (dbFindProductById pid s).1 with
    | none =>
      constructor
      · intro _
        exact ⟨pid, List.mem_cons_self pid rest, hf⟩
      · intro _
        rfl
    | some p =>
      have ih := scanProductsS_error_iff date rest s
      cases hr : scanProductsS date rest s with
      | mk r s2 =>
        rw [hr] at ih
        cases r with
        | error e =>
          cases e
          constructor
          · intro _
            obtain ⟨q, hq, hnone⟩ := ih.mp rfl
            exact ⟨q, List.mem_cons_of_mem pid hq, hnone⟩
          · intro _
            rfl
        | ok ps =>
          constructor
          · intro hcontra
            exact absurd hcontra (by simp)
          · rintro ⟨q, hq, hnone⟩
            rcases List.mem_cons.mp hq with h1 | h2
            · rw [h1, hf] at hnone
              exact Option.noConfusion hnone
            · have hcontra := ih.mpr ⟨q, h2, hnone⟩
              exact absurd hcontra (by simp)

/-- Failure characterization of the fridge loop: the scan throws exactly
when some scanned fridge holds a member reference that fails to
resolve. -/
theorem scanFridgesS_error_iff (date : Int) :
    ∀ (fs : List Fridge) (s : Store),
      ((scanFridgesS date fs s).1 = .error ()) ↔
      ∃ f ∈ fs, ∃ pid ∈ f.products, (dbFindProductById pid s).1 = none
  | [], s => by
    constructor
    · intro h
      replace h : (Except.ok [] : Except Unit (List ScanResult)) = .error () := h
      exact absurd h (by simp)
    · rintro ⟨f, hf, _⟩
      exact absurd hf (List.not_mem_nil f)
  | f :: rest, s => by
    cases hp : scanProductsS date f.products s with
    | mk r s1 =>
      have hs1 : s1 = s := by
        have hst := scanProductsS_store date f.products s
        rw [hp] at hst
        exact hst
      rw [hs1] at hp
      cases r with
      | error e =>
        cases e
        rw [scanFridgesS_cons_err date f rest s s hp]
        constructor
        · intro _
          obtain ⟨pid, hpid, hnone⟩ :=
            (scanProductsS_error_iff date f.products s).mp (by rw [hp])
          exact ⟨f, List.mem_cons_self f rest, pid, hpid, hnone⟩
        · intro _
          rfl
      | ok expired =>
        have ih := scanFridgesS_error_iff date rest s
        cases hr : scanFridgesS date rest s with
        | mk r2 s2 =>
          cases r2 with
          | error e2 =>
            cases e2
            rw [scanFridgesS_cons_ok_err date f rest s s s2 expired hp hr]
            constructor
            · intro _
              obtain ⟨g, hg, pid, hpid, hnone⟩ := ih.mp (by rw [hr])
              exact ⟨g, List.mem_cons_of_mem f hg, pid, hpid, hnone⟩
            · intro _
              rfl
          | ok rs2 =>
            rw [scanFridgesS_cons_ok_ok date f rest s s s2 expired rs2 hp hr]
            constructor
            · intro hcontra
              replace hcontra :
                  Except.ok ({ fridge := f, expiredProducts := expired } :: rs2) =
                  (Except.error () : Except Unit (List ScanResult)) := hcontra
              exact absurd hcontra (by simp)
            · rintro ⟨g, hg, pid, hpid, hnone⟩
              rcases List.mem_cons.mp hg with h1 | h2
              · subst h1
                have hcontra : (scanProductsS date g.products s).1 = .error () :=
                  (scanProductsS_error_iff date g.products s).mpr ⟨pid, hpid, hnone⟩
                rw [hp] at hcontra
                replace hcontra :
                    (Except.ok expired : Except Unit (List Product)) = .error () := hcontra
                exact absurd hcontra (by simp)
              · have hcontra := ih.mpr ⟨g, h2, pid, hpid, hnone⟩
                rw [hr] at hcontra
                replace hcontra :
                    (Except.ok rs2 : Except Unit (List ScanResult)) = .error () := hcontra
                exact absurd hcontra (by simp)

/-! ## Claim C3 -/

/-- C3: the capability gate grants access if and only if the bitwise
conjunction of the mask and the required flag is nonzero, otherwise it
fails with a 403 forbidden error; in particular mask 1 with required 8
is denied and mask 15 with required 8 is granted. -/
theorem c3_capability_gate (mask required : Nat) :
    (hasPermission mask required = .granted ↔ mask &&& required ≠ 0) ∧
    (hasPermission mask required = .forbidden 403 ↔ mask &&& required = 0) ∧
    hasPermission 1 8 = .forbidden 403 ∧
    hasPermission 15 8 = .granted := by
  refine ⟨?_, ?_, by decide, by decide⟩ <;>
    · unfold hasPermission
      split <;> simp_all

/-- Concrete instance of C3 at the two example inputs of the claim. -/
theorem c3_capability_gate_witness :
    hasPermission 1 8 = .forbidden 403 ∧ hasPermission 15 8 = .granted :=
  ⟨(c3_capability_gate 1 8).2.2.1, (c3_capability_gate 15 8).2.2.2⟩

/-! ## Claim C4 -/

/-- C4: the token verifier fails with a 401 authentication error exactly
when the header is missing, the scheme is not Bearer, or verification of
the token against the configured public key fails; and every unexpired
token signed with the configured key pair and presented with the Bearer
scheme yields a principal reproducing the exact claim set. -/
theorem c4_token_verifier (publicKey : Nat) (now : Int) (header : Option AuthHeader) :
    (authenticateJWT publicKey now header = .unauthorized 401 ↔
      header = none ∨
      (∃ h, header = some h ∧ h.scheme ≠ "Bearer") ∨
      (∃ h, header = some h ∧ h.scheme = "Bearer" ∧
        jwtVerify h.token publicKey now = none)) ∧
    (∀ (c : Claims) (expiresAt : Int), now < expiresAt →
      authenticateJWT publicKey now
        (some { scheme := "Bearer", token := some (signJwt c publicKey expiresAt) }) =
      .ok { username := c.sub, firstName := c.given_name, lastName := c.family_name,
            email := c.email, id := c.id, permissionLevel := c.x_permission_level }) := by
  constructor
  · cases header with
    | none => simp [authenticateJWT]
    | some h =>
      simp only [authenticateJWT]
      by_cases hs : h.scheme = "Bearer"
      · simp only [hs, ne_eq, not_true_eq_false, if_false]
        cases hv : jwtVerify h.token publicKey now with
        | none => simp [hs, hv]
        | some payload => simp [hs, hv]
      · simp [hs]
  · intro c expiresAt hlt
    simp [authenticateJWT, jwtVerify, signJwt, hlt, principalOfClaims]

/-- Concrete instance of C4: a token signed with the configured pair and
unexpired, presented with the Bearer scheme, is accepted with the exact
claim mapping; and a missing header is rejected with 401. -/
theorem c4_token_verifier_witness :
    authenticateJWT 7 (0 : Int)
      (some { scheme := "Bearer",
              token := some (signJwt
                { sub := "beata", given_name := "Beata", family_name := "Eriksson",
                  email := "b@e.se", id := "u1", x_permission_level := 1 } 7 100) }) =
      .ok { username := "beata", firstName := "Beata", lastName := "Eriksson",
            email := "b@e.se", id := "u1", permissionLevel := 1 } ∧
    authenticateJWT 7 (0 : Int) none = .unauthorized 401 :=
  ⟨(c4_token_verifier 7 0 none).2
      { sub := "beata", given_name := "Beata", family_name := "Eriksson",
        email := "b@e.se", id := "u1", x_permission_level := 1 } 100 (by decide),
   (c4_token_verifier 7 0 none).1.mpr (Or.inl rfl)⟩

/-- When every outbound call of the cycle resolves to an HTTP response,
the dispatch loop attempts every target in order and no exception
escapes. -/
theorem dispatchLoop_all_resolve (fetchO : Nat → FetchResult) :
    ∀ (rs : List ScanResult),
      (∀ r ∈ rs, fetchO r.fridge._id ≠ .reject) →
      dispatchLoop fetchO rs = (rs.map (fun r => r.fridge._id), false)
  | [], _ => rfl
  | r :: rest, h => by
    have hr := h r (List.mem_cons_self r rest)
    cases hf : fetchO r.fridge._id with
    | reject => exact absurd hf hr
    | httpResponse ok status =>
      simp only [dispatchLoop, hf]
      rw [dispatchLoop_all_resolve fetchO rest
        (fun q hq => h q (List.mem_cons_of_mem r hq))]
      simp

/-- When the first rejected call is the one for target `r`, the dispatch
loop attempts exactly the targets before it and `r` itself, and the
exception escapes. -/
theorem dispatchLoop_first_reject (fetchO : Nat → FetchResult) :
    ∀ (pre : List ScanResult) (r : ScanResult) (post : List ScanResult),
      (∀ q ∈ pre, fetchO q.fridge._id ≠ .reject) →
      fetchO r.fridge._id = .reject →
      dispatchLoop fetchO (pre ++ r :: post) =
        ((pre ++ [r]).map (fun q => q.fridge._id), true)
  | [], r, post, _, hrej => by
    simp only [List.nil_append, dispatchLoop, hrej, List.map_cons, List.map_nil]
  | q :: pre, r, post, hpre, hrej => by
    have hq := hpre q (List.mem_cons_self q pre)
    cases hf : fetchO q.fridge._id with
    | reject => exact absurd hf hq
    | httpResponse ok status =>
      simp only [List.cons_append, dispatchLoop, hf, List.append_eq]
      rw [dispatchLoop_first_reject fetchO pre r post
        (fun p hp => hpre p (List.mem_cons_of_mem q hp)) hrej]
      simp

/-- The full pair form of the scan result, from its first component and
the absence of writes. -/
theorem checkFridges_eq_of_fst (date : Int) (s : Store)
    (r : Except Unit (List ScanResult)) (h : (checkFridges date s).1 = r) :
    checkFridges date s = (r, s) := by
  have h2 := checkFridges_store date s
  cases hc : checkFridges date s with
  | mk a b =>
    rw [hc] at h h2
    replace h : a = r := h
    replace h2 : b = s := h2
    rw [h, h2]

/-- Resolved form of the cleanout trigger when the scan succeeds: the
observable outcome is decided by the dispatch loop alone. -/
theorem cleanOut_of_scan_ok (date : Int) (fetchO : Nat → FetchResult) (s : Store)
    (rs : List ScanResult) (att : List Nat) (failed : Bool)
    (h : (checkFridges date s).1 = .ok rs)
    (hd : dispatchLoop fetchO rs = (att, failed)) :
    cleanOut date fetchO s =
      ((att, if failed then .errorPassed else .noContent), s) := by
  have step : cleanOut date fetchO s =
      (match dispatchLoop fetchO rs with
       | (att, failed) => ((att, if failed then .errorPassed else .noContent), s)) := by
    unfold cleanOut
    rw [checkFridges_eq_of_fst date s _ h]
  rw [step, hd]

/-- Resolved form of the cleanout trigger when the scan itself throws:
nothing is dispatched and the error is passed to the handler. -/
theorem cleanOut_of_scan_err (date : Int) (fetchO : Nat → FetchResult) (s : Store)
    (h : (checkFridges date s).1 = .error ()) :
    cleanOut date fetchO s = (([], .errorPassed), s) := by
  unfold cleanOut
  rw [checkFridges_eq_of_fst date s _ h]

/-! ## Claim C5 -/

/-- C5: whenever the scan completes, the expired list attached to each
scanned collection is exactly its resolved members with expiration date
strictly before the reference instant, and a collection with zero
members carries an empty expired list. -/
theorem c5_expired_selection (date : Int) (s : Store) (rs : List ScanResult)
    (h : (checkFridges date s).1 = .ok rs) :
    (∀ r ∈ rs, r.expiredProducts =
      (r.fridge.products.filterMap (fun pid => (dbFindProductById pid s).1)).filter
        (fun p => decide (p.expirationDate < date))) ∧
    (∀ r ∈ rs, r.fridge.products = [] → r.expiredProducts = []) := by
  replace h :
      (scanFridgesS date (s.fridges.filter (fun f => f.webhookUrl.isSome)) s).1 = .ok rs := h
  obtain ⟨-, h2⟩ := scanFridgesS_ok date _ s rs h
  refine ⟨h2, ?_⟩
  intro r hr hempty
  rw [h2 r hr, hempty]
  simp

/-- Concrete instance of C5: the store with one monitored collection
holding a product expired yesterday and one expiring tomorrow, scanned
at the reference date between them, yields exactly the first product,
and its scan member equations hold. -/
theorem c5_expired_selection_witness :
    (checkFridges 0 storeScan).1 = .ok storeScanResult ∧
    (∀ r ∈ storeScanResult, r.expiredProducts =
      (r.fridge.products.filterMap (fun pid => (dbFindProductById pid storeScan).1)).filter
        (fun p => decide (p.expirationDate < 0))) ∧
    (∀ r ∈ storeScanResult, r.fridge.products = [] → r.expiredProducts = []) := by
  refine ⟨rfl, ?_, ?_⟩
  · exact (c5_expired_selection 0 storeScan storeScanResult rfl).1
  · exact (c5_expired_selection 0 storeScan storeScanResult rfl).2

/-! ## Claim C2 -/

/-- C2 fails on the code: in the store whose first monitored collection
holds a dangling member reference, the scan does not skip the member and
continue — it aborts entirely, returning no expired list for any
collection, not even for the intact second collection. -/
theorem c2_counterexample :
    (checkFridges 0 storeDangling).1 = .error () ∧
    ∀ rs : List ScanResult, (checkFridges 0 storeDangling).1 ≠ .ok rs := by
  refine ⟨rfl, ?_⟩
  intro rs h
  replace h : (Except.error () : Except Unit (List ScanResult)) = .ok rs := h
  exact Except.noConfusion h

/-- C2 amended: a member lookup failure does not degrade to skipping that
member — it aborts the whole scan. The scan throws exactly when some
monitored collection holds a member reference that fails to resolve; in
particular, when every reference resolves, every collection is
evaluated. -/
theorem c2_dangling_ref_aborts (date : Int) (s : Store) :
    ((checkFridges date s).1 = .error ()) ↔
    ∃ f ∈ (dbFindWebhookFridges s).1, ∃ pid ∈ f.products,
      (dbFindProductById pid s).1 = none :=
  scanFridgesS_error_iff date (s.fridges.filter (fun f => f.webhookUrl.isSome)) s

/-- Concrete instance of the amended C2: the dangling reference of the
first monitored collection makes the whole scan throw. -/
theorem c2_dangling_ref_aborts_witness :
    (checkFridges 0 storeDangling).1 = .error () :=
  (c2_dangling_ref_aborts 0 storeDangling).mpr
    ⟨{ _id := 1, name := "broken", location := none, ownerId := 0, products := [10],
       temperature := none, webhookUrl := some "hook1", webhookSecret := some "s1" },
     List.mem_cons_self _ _, 10, List.mem_cons_self _ _, rfl⟩

/-! ## Claim C1 -/

/-- C1 fails on the code: against the store with three registered
targets, with the outbound call for the second target refused at the
network level, the cleanout cycle attempts only the first and second
targets — the third is never attempted — and the caller observes the
failure instead of the success response. -/
theorem c1_counterexample :
    cleanOut 0 rejectSecond store3 = (([1, 2], .errorPassed), store3) ∧
    (3 : Nat) ∉ ([1, 2] : List Nat) ∧
    HttpOutcome.errorPassed ≠ HttpOutcome.noContent := by
  exact ⟨rfl, by decide, by decide⟩

/-- C1 amended: only a non-success HTTP response is tolerated without
short-circuiting; an outbound call that fails at the network level
(rejected promise) aborts the dispatch loop at that target — the targets
after it are not attempted — and the caller of the cleanout trigger
observes the failure: the error is passed to the error handler instead
of the success response. -/
theorem c1_network_failure_aborts (date : Int) (fetchO : Nat → FetchResult) (s : Store)
    (pre post : List ScanResult) (r : ScanResult)
    (hscan : (checkFridges date s).1 = .ok (pre ++ r :: post))
    (hpre : ∀ q ∈ pre, fetchO q.fridge._id ≠ .reject)
    (hrej : fetchO r.fridge._id = .reject) :
    cleanOut date fetchO s =
      (((pre ++ [r]).map (fun q => q.fridge._id), .errorPassed), s) := by
  have hd := dispatchLoop_first_reject fetchO pre r post hpre hrej
  have e := cleanOut_of_scan_ok date fetchO s (pre ++ r :: post) _ _ hscan hd
  simpa using e

/-- Concrete instance of the amended C1 at the three-target store with
the second call refused. -/
theorem c1_network_failure_aborts_witness :
    cleanOut 0 rejectSecond store3 = (([1, 2], .errorPassed), store3) := by
  have h := c1_network_failure_aborts 0 rejectSecond store3
    [{ fridge := fridgeA, expiredProducts := [] }]
    [{ fridge := fridgeC, expiredProducts := [] }]
    { fridge := fridgeB, expiredProducts := [] }
    rfl
    (by
      intro q hq hcon
      rw [List.mem_singleton] at hq
      subst hq
      exact FetchResult.noConfusion hcon)
    rfl
  exact h.trans (by rfl)

/-! ## Claim C10 -/

/-- C10: when every outbound call of the cycle resolves to an HTTP
response, the trigger responds 204 regardless of the status codes, every
target is attempted, and a non-success status has no observable effect:
the cycle result is identical for any two oracles that both always
resolve, whatever their ok flags and statuses. -/
theorem c10_resolved_responses_yield_204 (date : Int) (s : Store)
    (rs : List ScanResult) (fetchO fetchP : Nat → FetchResult)
    (hscan : (checkFridges date s).1 = .ok rs)
    (hO : ∀ r ∈ rs, fetchO r.fridge._id ≠ .reject)
    (hP : ∀ r ∈ rs, fetchP r.fridge._id ≠ .reject) :
    cleanOut date fetchO s = ((rs.map (fun r => r.fridge._id), .noContent), s) ∧
    cleanOut date fetchO s = cleanOut date fetchP s := by
  have e1 := cleanOut_of_scan_ok date fetchO s rs (rs.map (fun r => r.fridge._id)) false
    hscan (dispatchLoop_all_resolve fetchO rs hO)
  have e2 := cleanOut_of_scan_ok date fetchP s rs (rs.map (fun r => r.fridge._id)) false
    hscan (dispatchLoop_all_resolve fetchP rs hP)
  constructor
  · simpa using e1
  · rw [e1, e2]

/-- Concrete instance of C10: against the three-target store, an oracle
answering every call with a 500 failure response still yields a 204 with
all three targets attempted, identically to an oracle answering 200. -/
theorem c10_resolved_responses_yield_204_witness :
    cleanOut 0 (fun _ => FetchResult.httpResponse false 500) store3 =
      (([1, 2, 3], .noContent), store3) ∧
    cleanOut 0 (fun _ => FetchResult.httpResponse false 500) store3 =
      cleanOut 0 (fun _ => FetchResult.httpResponse true 200) store3 := by
  have h := c10_resolved_responses_yield_204 0 store3 store3Result
    (fun _ => FetchResult.httpResponse false 500)
    (fun _ => FetchResult.httpResponse true 200)
    rfl
    (fun r _ hcon => FetchResult.noConfusion hcon)
    (fun r _ hcon => FetchResult.noConfusion hcon)
  exact ⟨h.1.trans (by rfl), h.2⟩

/-! ## Claim C7 -/

/-- C7: for every store and reference instant, running the expiration
scan leaves the persisted state of every collection and every item
unchanged: the scan performs no writes. -/
theorem c7_scan_no_writes (date : Int) (s : Store) :
    ((checkFridges date s).2.fridges = s.fridges ∧
     (checkFridges date s).2.products = s.products) ∧
    (checkFridges date s).2 = s :=
  ⟨⟨congrArg Store.fridges (checkFridges_store date s),
    congrArg Store.products (checkFridges_store date s)⟩,
   checkFridges_store date s⟩

/-! ## Claim C8 -/

/-- C8: invoking the scan twice with no intervening data change produces
identical expired-item results both times: the scan is a deterministic
function of the store state and the reference instant, and the store
after the first scan is exactly the store the second scan reads. -/
theorem c8_scan_idempotent (date : Int) (s : Store) :
    (checkFridges date ((checkFridges date s).2)).1 = (checkFridges date s).1 ∧
    (checkFridges date ((checkFridges date s).2)).2 = s := by
  rw [checkFridges_store date s]
  exact ⟨rfl, checkFridges_store date s⟩

/-! ## Claim C6 -/

/-- Resolved form of the registration handler on a falsy url or secret:
bad request, nothing written. -/
theorem registerWebhook_badRequest (s : Store) (fid : Nat) (body : WebhookBody)
    (f : Fridge) (hfind : findFridge s fid = some f)
    (hb : (falsy body.webhookUrl || falsy body.webhookSecret) = true) :
    registerWebhook s fid body = (.badRequest, s) := by
  unfold registerWebhook
  rw [hfind]
  simp only []
  simp [hb]

/-- Resolved form of the registration handler on a present url and
secret: both fields are assigned and the fridge is saved. -/
theorem registerWebhook_saves (s : Store) (fid : Nat) (body : WebhookBody)
    (f : Fridge) (hfind : findFridge s fid = some f)
    (hb : (falsy body.webhookUrl || falsy body.webhookSecret) = false) :
    registerWebhook s fid body =
      (.noContent,
       dbSaveFridge { f with webhookUrl := body.webhookUrl,
                             webhookSecret := body.webhookSecret } s) := by
  unfold registerWebhook
  rw [hfind]
  simp only []
  simp [hb]

/-- C6: registering a webhook on an existing collection with a missing
url or a missing secret fails with a 400 bad request and leaves the
whole store — in particular the collection's stored notification
target — unchanged. -/
theorem c6_register_missing_field (s : Store) (fid : Nat) (body : WebhookBody)
    (f : Fridge) (hfind : findFridge s fid = some f)
    (hmiss : body.webhookUrl = none ∨ body.webhookSecret = none) :
    registerWebhook s fid body = (.badRequest, s) := by
  apply registerWebhook_badRequest s fid body f hfind
  rcases hmiss with h | h <;> simp [falsy, h]

/-- Concrete instance of C6: registration with a missing secret on the
fridge with an already stored target answers 400 and leaves the store,
and hence the stored target, untouched. -/
theorem c6_register_missing_field_witness :
    registerWebhook storeReg 1 { webhookUrl := some "newHook", webhookSecret := none } =
      (.badRequest, storeReg) :=
  c6_register_missing_field storeReg 1
    { webhookUrl := some "newHook", webhookSecret := none } fridgeReg rfl (Or.inr rfl)

/-! ## Claim C9 -/

/-- A non-falsy optional string is present. -/
theorem isSome_of_falsy_false (x : Option String) (h : falsy x = false) :
    x.isSome = true := by
  cases x with
  | none => simp [falsy] at h
  | some v => rfl

/-- Saving a fridge that satisfies the webhook pairing preserves the
pairing invariant of the store. -/
theorem webhookInv_save (s : Store) (f : Fridge) (hs : WebhookInv s)
    (hf : f.webhookUrl.isSome ↔ f.webhookSecret.isSome) :
    WebhookInv (dbSaveFridge f s) := by
  intro g hg
  replace hg : g ∈ s.fridges.map (fun g => if g._id == f._id then f else g) := hg
  obtain ⟨g0, hg0, hmap⟩ := List.mem_map.mp hg
  by_cases h : (g0._id == f._id) = true
  · rw [if_pos h] at hmap
    subst hmap
    exact hf
  · rw [if_neg h] at hmap
    subst hmap
    exact hs g0 hg0

/-- Fridge creation preserves the pairing invariant: the new fridge has
neither webhook field set. -/
theorem webhookInv_createFridge (s : Store) (newId ownerId : Nat)
    (name location : Option String) (hs : WebhookInv s) :
    WebhookInv (createFridge s newId ownerId name location) := by
  unfold createFridge
  cases name with
  | none => exact hs
  | some n =>
    simp only []
    split
    · exact hs
    · split
      · exact hs
      · intro g hg
        rcases List.mem_append.mp hg with h | h
        · exact hs g h
        · rw [List.mem_singleton] at h
          subst h
          simp

/-- Full edit preserves the pairing invariant: the saved fridge keeps its
stored webhook fields. -/
theorem webhookInv_putEdit (s : Store) (fid : Nat) (name location : Option String)
    (temperature : Option Int) (hs : WebhookInv s) :
    WebhookInv (putEditFridge s fid name location temperature) := by
  unfold putEditFridge
  cases hfind : findFridge s fid with
  | none => exact hs
  | some f =>
    have hfind2 : s.fridges.find? (fun g => g._id == fid) = some f := hfind
    have hf : f ∈ s.fridges := List.mem_of_find?_eq_some hfind2
    simp only []
    split
    · exact hs
    · split
      · exact hs
      · split
        · exact hs
        · exact webhookInv_save s _ hs (by simpa using hs f hf)

/-- Partial edit preserves the pairing invariant. -/
theorem webhookInv_patchEdit (s : Store) (fid : Nat) (name location : Option String)
    (temperature : Option Int) (hs : WebhookInv s) :
    WebhookInv (patchEditFridge s fid name location temperature) := by
  unfold patchEditFridge
  cases hfind : findFridge s fid with
  | none => exact hs
  | some f =>
    have hfind2 : s.fridges.find? (fun g => g._id == fid) = some f := hfind
    have hf : f ∈ s.fridges := List.mem_of_find?_eq_some hfind2
    simp only []
    split
    · exact hs
    · exact webhookInv_save s _ hs (by simpa using hs f hf)

/-- Webhook registration preserves the pairing invariant: both fields are
written together, each present. -/
theorem webhookInv_registerWebhook (s : Store) (fid : Nat) (body : WebhookBody)
    (hs : WebhookInv s) : WebhookInv (registerWebhook s fid body).2 := by
  cases hfind : findFridge s fid with
  | none =>
    have h : registerWebhook s fid body = (.notFound, s) := by
      unfold registerWebhook
      rw [hfind]
    rw [h]
    exact hs
  | some f =>
    cases hb : falsy body.webhookUrl || falsy body.webhookSecret with
    | true =>
      rw [registerWebhook_badRequest s fid body f hfind hb]
      exact hs
    | false =>
      rw [registerWebhook_saves s fid body f hfind hb]
      apply webhookInv_save s _ hs
      obtain ⟨hbu, hbs⟩ := Bool.or_eq_false_iff.mp hb
      have hu := isSome_of_falsy_false body.webhookUrl hbu
      have hsec := isSome_of_falsy_false body.webhookSecret hbs
      simp [hu, hsec]

/-- Fridge deletion preserves the pairing invariant: the surviving
fridges are stored fridges. -/
theorem webhookInv_deleteFridge (s : Store) (fid : Nat) (hs : WebhookInv s) :
    WebhookInv (deleteFridge s fid) := by
  unfold deleteFridge
  cases hfind : findFridge s fid with
  | none => exact hs
  | some f =>
    intro g hg
    replace hg : g ∈ s.fridges.filter (fun g => !(g._id == fid)) := hg
    exact hs g (List.mem_of_mem_filter hg)

/-- Product creation preserves the pairing invariant: only the member
list of the fridge is touched. -/
theorem webhookInv_createProduct (s : Store) (fid pid : Nat) (name : Option String)
    (expirationDate : Option Int) (hs : WebhookInv s) :
    WebhookInv (createProduct s fid pid name expirationDate) := by
  unfold createProduct
  cases name with
  | none => exact hs
  | some n =>
    cases expirationDate with
    | none => exact hs
    | some e =>
      simp only []
      split
      · exact hs
      · split
        · exact hs
        next f hfind =>
          have hfind2 : s.fridges.find? (fun g => g._id == fid) = some f := hfind
          have hf : f ∈ s.fridges := List.mem_of_find?_eq_some hfind2
          exact webhookInv_save _ _ hs (by simpa using hs f hf)

/-- Product deletion preserves the pairing invariant: only the member
list of the fridge and the product collection are touched. -/
theorem webhookInv_deleteProduct (s : Store) (fid pid : Nat) (hs : WebhookInv s) :
    WebhookInv (deleteProduct s fid pid) := by
  unfold deleteProduct
  split
  · exact hs
  · split
    · exact hs
    next f hfind =>
      have hfind2 : s.fridges.find? (fun g => g._id == fid) = some f := hfind
      have hf : f ∈ s.fridges := List.mem_of_find?_eq_some hfind2
      exact webhookInv_save s _ hs (by simpa using hs f hf)

/-- C9: every store reachable through the public operations satisfies the
pairing invariant — a fridge has a webhook url exactly when it has a
webhook secret — and consequently every fridge selected by the scanner
through the existence of its webhook url alone carries a secret. -/
theorem c9_webhook_pairing (s : Store) (hreach : Reachable s) :
    (∀ f ∈ s.fridges, f.webhookUrl.isSome ↔ f.webhookSecret.isSome) ∧
    (∀ f ∈ (dbFindWebhookFridges s).1, f.webhookSecret.isSome) := by
  have hinv : WebhookInv s := by
    induction hreach with
    | init => intro f hf; exact absurd hf (List.not_mem_nil f)
    | createF newId ownerId name location _ ih =>
      exact webhookInv_createFridge _ newId ownerId name location ih
    | putF fid name location temperature _ ih =>
      exact webhookInv_putEdit _ fid name location temperature ih
    | patchF fid name location temperature _ ih =>
      exact webhookInv_patchEdit _ fid name location temperature ih
    | registerW fid body _ ih => exact webhookInv_registerWebhook _ fid body ih
    | deleteF fid _ ih => exact webhookInv_deleteFridge _ fid ih
    | createP fid pid name expirationDate _ ih =>
      exact webhookInv_createProduct _ fid pid name expirationDate ih
    | deleteP fid pid _ ih => exact webhookInv_deleteProduct _ fid pid ih
  refine ⟨hinv, ?_⟩
  intro f hf
  replace hf : f ∈ s.fridges.filter (fun g => g.webhookUrl.isSome) := hf
  have hmem : f ∈ s.fridges := List.mem_of_mem_filter hf
  have hsome : f.webhookUrl.isSome := by simpa using List.of_mem_filter hf
  exact (hinv f hmem).mp hsome

/-- Concrete instance of C9: the store built by creating a fridge and
then registering a target on it is reachable and satisfies the pairing
invariant and the scanner consequence. -/
theorem c9_webhook_pairing_witness :
    (∀ f ∈ demoStore.fridges, f.webhookUrl.isSome ↔ f.webhookSecret.isSome) ∧
    (∀ f ∈ (dbFindWebhookFridges demoStore).1, f.webhookSecret.isSome) :=
  c9_webhook_pairing demoStore
    (Reachable.registerW 1 { webhookUrl := some "hook", webhookSecret := some "sec" }
      (Reachable.createF 1 5 (some "kitchen") none Reachable.init))

end Fridgetracker
